import Mathlib

/-!
Form validation of `pkg/forms` (snippetbox): a shallow embedding of
`pkg/forms/form.go`.

* A Go `string` holding text (well-formed UTF-8) is a Lean `String`: its `length`
  is the number of code points (`utf8.RuneCountInString`), its `utf8ByteSize` the
  Go `len`.
* A Go `map[string][]string` is an association list searched from the head;
  the index expression `m[key]` reads it, the assignment `m[key] = ...` writes it.
* A `*regexp.Regexp` is the predicate its `MatchString` computes; `EmailRX` is
  the predicate of the syntax tree of its pattern.
* A method with a pointer receiver `func (f *Form) M(...)` is a function
  `Form → ... → Form` returning the form after the call.
-/

namespace forms

/-! ## Library functions used by `form.go` -/

/-- Go `unicode.IsSpace`: the Latin-1 cases `\t \n \v \f \r`, space, U+0085,
U+00A0, and the `White_Space` ranges above Latin-1. -/
def IsSpace (r : Char) : Bool :=
  let n := r.toNat
  (9 ≤ n && n ≤ 13) || n == 32 || n == 133 || n == 160 || n == 5760 ||
  (8192 ≤ n && n ≤ 8202) || n == 8232 || n == 8233 || n == 8239 || n == 8287 ||
  n == 12288

/-- Go `strings.TrimSpace`: the string without its leading and trailing white
space (`TrimLeftFunc` then `TrimRightFunc` with `unicode.IsSpace`). -/
def TrimSpace (s : String) : String :=
  ⟨((s.data.dropWhile IsSpace).reverse.dropWhile IsSpace).reverse⟩

/-- Go `utf8.RuneCountInString`, as a Go `int`. -/
def RuneCountInString (s : String) : Int :=
  (s.length : Int)

/-- Go `fmt.Sprintf` of the verb `%d` for an `int`: decimal digits, a leading
`-` for a negative number. -/
def formatInt (d : Int) : String :=
  toString d

/-- A Go `map[string][]string`: the entries, searched from the head. -/
abbrev Map := List (String × List String)

/-- The index expression `m[key]`: the slice stored under `key`, `nil` when the
key is absent. -/
def Map.index : Map → String → List String
  | [], _ => []
  | (k, vs) :: rest, key => if k = key then vs else Map.index rest key

/-- The assignment `m[key] = vs`: the entry of the key is overwritten, a key
that is absent gets a new entry. -/
def Map.store : Map → String → List String → Map
  | [], key, vs => [(key, vs)]
  | (k, old) :: rest, key, vs =>
    if k = key then (k, vs) :: rest else (k, old) :: Map.store rest key vs

/-- Go `url.Values`, a `map[string][]string`. -/
abbrev Values := Map

/-- Go `url.Values.Get`: `vs := v[key]; if len(vs) == 0 { return "" }; return vs[0]`. -/
def Values.Get (v : Values) (key : String) : String :=
  match Map.index v key with
  | [] => ""
  | x :: _ => x

/-! ## Regular expressions

The syntax tree of the constructs `EmailRX` is written with, and which suffixes
of the text a match of a construct starting at a suffix can leave. -/

/-- Syntax of a regular expression. -/
inductive Regex where
  /-- The beginning of the text, `^`. -/
  | bot
  /-- The end of the text, `$` without the flag `m`. -/
  | eot
  /-- A literal character. -/
  | lit (c : Char)
  /-- A character class `[...]`, given by its ranges. -/
  | cls (ranges : List (Char × Char))
  /-- Concatenation. -/
  | cat (a b : Regex)
  /-- Zero or one, `a?`. -/
  | opt (a : Regex)
  /-- Zero or more, `a*`. -/
  | star (a : Regex)
  /-- One or more, `a+`. -/
  | plus (a : Regex)
  /-- Between `lo` and `hi` times, `a{lo,hi}`. -/
  | rep (a : Regex) (lo hi : Nat)

/-- Membership of a character in a class. -/
def inClass (ranges : List (Char × Char)) (c : Char) : Bool :=
  ranges.any fun r => r.1.toNat ≤ c.toNat && c.toNat ≤ r.2.toNat

/-- Any number of matches of `f` in a row, each consuming at least one
character; `fuel` bounds the number of matches. -/
def Regex.starAux (f : List Char → List (List Char)) : Nat → List Char → List (List Char)
  | 0, t => [t]
  | fuel + 1, t =>
    t :: ((f t).filter fun u => u.length < t.length).flatMap (Regex.starAux f fuel)

/-- Any number of matches of `f` in a row, each consuming at least one
character, lead from the suffix `t` to the suffix `u`: the repetition without a
bound on the number of matches. -/
inductive Regex.Repeats (f : List Char → List (List Char)) : List Char → List Char → Prop where
  | done (t : List Char) : Regex.Repeats f t t
  | more (t v u : List Char) (hv : v ∈ f t) (hlen : v.length < t.length)
      (hrest : Regex.Repeats f v u) : Regex.Repeats f t u

/-- Exactly `k` matches of `f` in a row. -/
def Regex.exactly (f : List Char → List (List Char)) : Nat → List Char → List (List Char)
  | 0, t => [t]
  | k + 1, t => (f t).flatMap (Regex.exactly f k)

/-- Between zero and `k` matches of `f` in a row. -/
def Regex.atMost (f : List Char → List (List Char)) : Nat → List Char → List (List Char)
  | 0, t => [t]
  | k + 1, t => t :: (f t).flatMap (Regex.atMost f k)

/-- The suffixes a match of the expression that starts at the suffix `t` of a
text of `n` characters can end at. -/
def Regex.step (n : Nat) : Regex → List Char → List (List Char)
  | .bot, t => if t.length = n then [t] else []
  | .eot, t => if t.isEmpty then [t] else []
  | .lit c, t =>
    match t with
    | d :: u => if d = c then [u] else []
    | [] => []
  | .cls ranges, t =>
    match t with
    | d :: u => if inClass ranges d then [u] else []
    | [] => []
  | .cat a b, t => (Regex.step n a t).flatMap (Regex.step n b)
  | .opt a, t => t :: Regex.step n a t
  | .star a, t => Regex.starAux (Regex.step n a) t.length t
  | .plus a, t => (Regex.step n a t).flatMap fun u => Regex.starAux (Regex.step n a) u.length u
  | .rep a lo hi, t =>
    (Regex.exactly (Regex.step n a) lo t).flatMap (Regex.atMost (Regex.step n a) (hi - lo))

/-- Whether the text contains a match of the expression: a match may start at
any suffix of the text. -/
def Regex.MatchString (re : Regex) (s : String) : Bool :=
  s.data.tails.any fun t => !(re.step s.length t).isEmpty

/-- Go `*regexp.Regexp`, as far as `form.go` uses it: what `MatchString` answers. -/
structure Regexp where
  MatchString : String → Bool

/-- Go `regexp.MustCompile`, from the syntax tree of the expression. -/
def MustCompile (re : Regex) : Regexp :=
  ⟨re.MatchString⟩

/-- The class `[a-zA-Z0-9]`. -/
def alnum : Regex :=
  .cls [('a', 'z'), ('A', 'Z'), ('0', '9')]

/-- The class `[a-zA-Z0-9-]`. -/
def alnumHyphen : Regex :=
  .cls [('a', 'z'), ('A', 'Z'), ('0', '9'), ('-', '-')]

/-- The class of the local part, `[a-zA-Z0-9.!#$%&'*+/=?^_{|}~-]` with the
grave accent after `_`. -/
def localPart : Regex :=
  .cls ([('a', 'z'), ('A', 'Z'), ('0', '9')] ++
    ".!#$%&'*+/=?^_`\x7b|\x7d~-".data.map fun c => (c, c))

/-- A label of the domain, `[a-zA-Z0-9](?:[a-zA-Z0-9-]{0,61}[a-zA-Z0-9])?`. -/
def domainLabel : Regex :=
  .cat alnum (.opt (.cat (.rep alnumHyphen 0 61) alnum))

/-- The syntax tree of the pattern of `EmailRX`:
`^ local+ @ label (?:\. label)* $`. -/
def emailPattern : Regex :=
  .cat .bot (.cat (.plus localPart) (.cat (.lit '@') (.cat domainLabel
    (.cat (.star (.cat (.lit '.') domainLabel)) .eot))))

/-! ## The field error aggregator -/

/-- Go `type errors map[string][]string`. -/
abbrev errors := Map

/-- Modelled from the spec: the method `errors.Add` of `pkg/forms` is not among
the sources; the field error aggregator maps a field name to its ordered list of
messages, in insertion order, so `Add` is `e[field] = append(e[field], message)`. -/
def errors.Add (e : errors) (field message : String) : errors :=
  Map.store e field (Map.index e field ++ [message])

/-! ## `form.go` -/

/-- Go `type Form struct { url.Values; Errors errors }`. -/
structure Form where
  Values : Values
  Errors : errors
  deriving DecidableEq

/-- The promoted method `f.Get` of the embedded `url.Values`. -/
def Form.Get (f : Form) (key : String) : String :=
  f.Values.Get key

/-- Go `New`: the form over `data` with an empty error map. -/
def New (data : Values) : Form :=
  { Values := data, Errors := [] }

/-- One iteration of the loop of `Required`. -/
def Form.requiredStep (f : Form) (field : String) : Form :=
  let value := f.Get field
  if TrimSpace value = "" then
    { f with Errors := f.Errors.Add field "This field cannot be blank" }
  else f

/-- Go `(*Form).Required`: `for _, field := range fields { ... }`. -/
def Form.Required (f : Form) (fields : List String) : Form :=
  fields.foldl Form.requiredStep f

/-- Go `(*Form).MinLength`. -/
def Form.MinLength (f : Form) (field : String) (d : Int) : Form :=
  let value := f.Get field
  if value = "" then f
  else if RuneCountInString value < d then
    { f with Errors :=
        f.Errors.Add field ("This field is too short (minimum is " ++ formatInt d ++ ")") }
  else f

/-- Go `(*Form).MatchesPattern`. -/
def Form.MatchesPattern (f : Form) (field : String) (pattern : Regexp) : Form :=
  let value := f.Get field
  if value = "" then f
  else if !pattern.MatchString value then
    { f with Errors := f.Errors.Add field "This field is invalid" }
  else f

/-- Go `(*Form).MaxLength`. -/
def Form.MaxLength (f : Form) (field : String) (d : Int) : Form :=
  let value := f.Get field
  if value = "" then f
  else if RuneCountInString value > d then
    { f with Errors :=
        f.Errors.Add field ("This field is too long (maximum is " ++ formatInt d ++ " characters)") }
  else f

/-- Go `(*Form).PermittedValues`: the loop returns at the first option equal to
the value; when it runs to its end the message is added. -/
def Form.PermittedValues (f : Form) (field : String) (opts : List String) : Form :=
  let value := f.Get field
  if value = "" then f
  else if opts.any (fun opt => value = opt) then f
  else { f with Errors := f.Errors.Add field "This field is invalid" }

/-- Go `(*Form).Valid`: `len(f.Errors) == 0`. -/
def Form.Valid (f : Form) : Bool :=
  f.Errors.length == 0

/-- Go `var EmailRX = regexp.MustCompile(...)`. -/
def EmailRX : Regexp :=
  MustCompile emailPattern

/-- A call of one of the validation rules of `Form`. -/
inductive Rule where
  | Required (fields : List String)
  | MinLength (field : String) (d : Int)
  | MaxLength (field : String) (d : Int)
  | MatchesPattern (field : String) (pattern : Regexp)
  | PermittedValues (field : String) (opts : List String)

/-- The form after a rule call. -/
def Form.call (f : Form) : Rule → Form
  | .Required fields => f.Required fields
  | .MinLength field d => f.MinLength field d
  | .MaxLength field d => f.MaxLength field d
  | .MatchesPattern field pattern => f.MatchesPattern field pattern
  | .PermittedValues field opts => f.PermittedValues field opts

/-- The form after a sequence of rule calls. -/
def Form.calls (f : Form) (rules : List Rule) : Form :=
  rules.foldl Form.call f

/-- The form `g` is the form `f` with exactly one message more, `message` at the
end of the messages of `field`: same values, same messages for every other field. -/
def Form.appendsOne (f g : Form) (field message : String) : Prop :=
  g.Values = f.Values ∧
  Map.index g.Errors field = Map.index f.Errors field ++ [message] ∧
  ∀ other, other ≠ field → Map.index g.Errors other = Map.index f.Errors other

end forms

namespace web

/-! ## `routes.go`

A handler is the nesting of the middleware around it; what a middleware or a
handler function does with a request is not part of it. -/

/-- The functions `func(http.Handler) http.Handler` that `routes.go` names. -/
inductive Middleware where
  | recoverPanic
  | logRequest
  | secureHeaders
  | sessionEnable
  | noSurf
  | authenticate
  | requireAuthentication
  /-- Go `http.StripPrefix(strip, h)`. -/
  | stripPath (strip : String)
  deriving DecidableEq

/-- The handler functions that `routes.go` names. -/
inductive HandlerFunc where
  | home
  | showSnippet
  | createSnippetForm
  | createSnippet
  | signupUserForm
  | signupUser
  | loginUserForm
  | loginUser
  | logoutUser
  | ping
  /-- Go `http.FileServer(http.Dir(dir))`. -/
  | fileServer (dir : String)
  deriving DecidableEq

/-- An `http.Handler`: the handler `h` at the core, or a middleware applied to
the next handler. -/
inductive Handler (α : Type) where
  | serve (h : α)
  | wrap (mw : Middleware) (next : Handler α)
  deriving DecidableEq

/-- Go `alice.Chain`: the slice of its constructors. -/
abbrev Chain := List Middleware

/-- Go `alice.New`. -/
def New (constructors : List Middleware) : Chain :=
  constructors

/-- Go `alice.Chain.Append`: the constructors of the chain, then the new ones. -/
def Chain.Append (c : Chain) (constructors : List Middleware) : Chain :=
  c ++ constructors

/-- Go `alice.Chain.Then`: the loop applies the constructors from the last to the
first, `h = c.constructors[len(c.constructors)-1-i](h)`. -/
def Chain.Then {α : Type} (c : Chain) (h : Handler α) : Handler α :=
  c.reverse.foldl (fun next mw => Handler.wrap mw next) h

/-- Go `alice.Chain.ThenFunc`. -/
def Chain.ThenFunc (c : Chain) (fn : HandlerFunc) : Handler HandlerFunc :=
  c.Then (Handler.serve fn)

/-- A route of a `chi` router: `method` is the HTTP method, `*` for every
method. -/
structure Route where
  method : String
  pattern : String
  handler : Handler HandlerFunc
  deriving DecidableEq

/-- A `chi` router, by the routes registered on it. -/
abbrev Mux := List Route

/-- Go `chi.NewRouter`. -/
def NewRouter : Mux :=
  []

/-- Go `chi.Mux.Get`. -/
def Mux.Get (r : Mux) (pattern : String) (h : Handler HandlerFunc) : Mux :=
  r ++ [Route.mk "GET" pattern h]

/-- Go `chi.Mux.Post`. -/
def Mux.Post (r : Mux) (pattern : String) (h : Handler HandlerFunc) : Mux :=
  r ++ [Route.mk "POST" pattern h]

/-- Go `chi.Mux.Handle`: the handler serves every method. -/
def Mux.Handle (r : Mux) (pattern : String) (h : Handler HandlerFunc) : Mux :=
  r ++ [Route.mk "*" pattern h]

/-- Go `chi.Mux.Route`: the routes that `fn` registers on a new router are
mounted under `pattern`. -/
def Mux.Route (r : Mux) (pattern : String) (fn : Mux → Mux) : Mux :=
  r ++ (fn NewRouter).map fun route => Route.mk route.method (pattern ++ route.pattern) route.handler

/-- Go `(*application).routes`. -/
def routes : Handler Mux :=
  let r := NewRouter
  let standardMiddleware :=
    New [Middleware.recoverPanic, Middleware.logRequest, Middleware.secureHeaders]
  let dynamicMiddleware :=
    New [Middleware.sessionEnable, Middleware.noSurf, Middleware.authenticate]
  let r := r.Get "/" (dynamicMiddleware.ThenFunc HandlerFunc.home)
  let r := r.Route "/snippet" fun r =>
    let r := r.Get "/\x7bid\x7d" (dynamicMiddleware.ThenFunc HandlerFunc.showSnippet)
    let r := r.Get "/create"
      ((dynamicMiddleware.Append [Middleware.requireAuthentication]).ThenFunc
        HandlerFunc.createSnippetForm)
    r.Post "/create"
      ((dynamicMiddleware.Append [Middleware.requireAuthentication]).ThenFunc
        HandlerFunc.createSnippet)
  let r := r.Route "/user" fun r =>
    let r := r.Get "/signup" (dynamicMiddleware.ThenFunc HandlerFunc.signupUserForm)
    let r := r.Post "/signup" (dynamicMiddleware.ThenFunc HandlerFunc.signupUser)
    let r := r.Get "/login" (dynamicMiddleware.ThenFunc HandlerFunc.loginUserForm)
    let r := r.Post "/login" (dynamicMiddleware.ThenFunc HandlerFunc.loginUser)
    r.Post "/logout"
      ((dynamicMiddleware.Append [Middleware.requireAuthentication]).ThenFunc
        HandlerFunc.logoutUser)
  let r := r.Get "/ping" (Handler.serve HandlerFunc.ping)
  let fileServer := Handler.serve (HandlerFunc.fileServer "./ui/static/")
  let r := r.Handle "/static/*" (Handler.wrap (Middleware.stripPath "/static") fileServer)
  standardMiddleware.Then (Handler.serve r)

/-- A stage a request passes through: a middleware, the dispatch of the router,
or a handler function. -/
inductive Stage where
  | middleware (mw : Middleware)
  | dispatch
  | handler (fn : HandlerFunc)
  deriving DecidableEq

/-- The middleware around the core of a handler, outermost first, and the core. -/
def Handler.unwrap {α : Type} : Handler α → List Middleware × α
  | .serve h => ([], h)
  | .wrap mw next => (mw :: (Handler.unwrap next).1, (Handler.unwrap next).2)

/-- The stages of a handler registered on the router, outermost first. -/
def Handler.stages (h : Handler HandlerFunc) : List Stage :=
  (Handler.unwrap h).1.map Stage.middleware ++ [Stage.handler (Handler.unwrap h).2]

/-- The stages a request passes through, outermost first, for each route of the
router at the core of the handler: the middleware around the router, the
dispatch of the router, the stages of the handler of the route. -/
def Handler.routeStages (h : Handler Mux) : List (String × String × List Stage) :=
  (Handler.unwrap h).2.map fun route =>
    (route.method, route.pattern,
      (Handler.unwrap h).1.map Stage.middleware ++ [Stage.dispatch] ++ route.handler.stages)

/-! ## `helpers.go` -/

/-- A Go `error` that is not nil, by the text its method `Error()` returns. -/
structure error where
  Error : String
  deriving DecidableEq

/-- An `http.ResponseWriter`, by what the client is sent through it: the status
code, once it is written, and the body written so far. The header map is not
part of it. -/
structure http.ResponseWriter where
  status : Option Nat
  body : String
  deriving DecidableEq

/-- Go `http.ResponseWriter.WriteHeader`: the status code is written once, a
later call changes nothing. -/
def http.ResponseWriter.WriteHeader (w : http.ResponseWriter) (statusCode : Nat) :
    http.ResponseWriter :=
  match w.status with
  | some _ => w
  | none => { w with status := some statusCode }

/-- Go `http.ResponseWriter.Write`: writes the status code 200 when none is
written yet, then appends to the body. -/
def http.ResponseWriter.Write (w : http.ResponseWriter) (b : String) : http.ResponseWriter :=
  { w.WriteHeader 200 with body := (w.WriteHeader 200).body ++ b }

/-- Go `http.StatusInternalServerError`. -/
def http.StatusInternalServerError : Nat :=
  500

/-- The table of Go `http.StatusText`. -/
def http.statusTexts : List (Nat × String) :=
  [
    (100, "Continue"),
    (101, "Switching Protocols"),
    (102, "Processing"),
    (103, "Early Hints"),
    (200, "OK"),
    (201, "Created"),
    (202, "Accepted"),
    (203, "Non-Authoritative Information"),
    (204, "No Content"),
    (205, "Reset Content"),
    (206, "Partial Content"),
    (207, "Multi-Status"),
    (208, "Already Reported"),
    (226, "IM Used"),
    (300, "Multiple Choices"),
    (301, "Moved Permanently"),
    (302, "Found"),
    (303, "See Other"),
    (304, "Not Modified"),
    (305, "Use Proxy"),
    (307, "Temporary Redirect"),
    (308, "Permanent Redirect"),
    (400, "Bad Request"),
    (401, "Unauthorized"),
    (402, "Payment Required"),
    (403, "Forbidden"),
    (404, "Not Found"),
    (405, "Method Not Allowed"),
    (406, "Not Acceptable"),
    (407, "Proxy Authentication Required"),
    (408, "Request Timeout"),
    (409, "Conflict"),
    (410, "Gone"),
    (411, "Length Required"),
    (412, "Precondition Failed"),
    (413, "Request Entity Too Large"),
    (414, "Request URI Too Long"),
    (415, "Unsupported Media Type"),
    (416, "Requested Range Not Satisfiable"),
    (417, "Expectation Failed"),
    (418, "I'm a teapot"),
    (421, "Misdirected Request"),
    (422, "Unprocessable Entity"),
    (423, "Locked"),
    (424, "Failed Dependency"),
    (425, "Too Early"),
    (426, "Upgrade Required"),
    (428, "Precondition Required"),
    (429, "Too Many Requests"),
    (431, "Request Header Fields Too Large"),
    (451, "Unavailable For Legal Reasons"),
    (500, "Internal Server Error"),
    (501, "Not Implemented"),
    (502, "Bad Gateway"),
    (503, "Service Unavailable"),
    (504, "Gateway Timeout"),
    (505, "HTTP Version Not Supported"),
    (506, "Variant Also Negotiates"),
    (507, "Insufficient Storage"),
    (508, "Loop Detected"),
    (510, "Not Extended"),
    (511, "Network Authentication Required")]

/-- Go `http.StatusText`: the text of the code, the empty string for a code that
is not in the table. -/
def http.StatusText (code : Nat) : String :=
  (http.statusTexts.lookup code).getD ""

/-- Go `http.Error`: writes the status code, then the message and a line end
(`fmt.Fprintln(w, error)`). -/
def http.Error (w : http.ResponseWriter) (error : String) (code : Nat) : http.ResponseWriter :=
  (w.WriteHeader code).Write (error ++ "\n")

/-- Go `type application struct`, the field that `serverError` uses: the error
log, by the texts handed to `errorLog.Output`. -/
structure application where
  errorLog : List String
  deriving DecidableEq

/-- Go `(*application).serverError`: the application and the response writer
after the call; `stack` is what `debug.Stack()` returns. -/
def application.serverError (app : application) (w : http.ResponseWriter) (err : error)
    (stack : String) : application × http.ResponseWriter :=
  let trace := err.Error ++ "\n" ++ stack
  let app := { app with errorLog := app.errorLog ++ [trace] }
  (app, http.Error w (http.StatusText http.StatusInternalServerError)
    http.StatusInternalServerError)

end web

namespace forms

/-! ## Lemmas on maps and on the library functions -/

theorem Map.index_store_same (m : Map) (key : String) (vs : List String) :
    Map.index (Map.store m key vs) key = vs := by
  induction m with
  | nil => simp [Map.store, Map.index]
  | cons entry rest ih =>
    obtain ⟨k, old⟩ := entry
    by_cases hk : k = key
    · simp [Map.store, Map.index, hk]
    · simp [Map.store, Map.index, hk, ih]

theorem Map.index_store_other (m : Map) (key other : String) (vs : List String)
    (h : other ≠ key) : Map.index (Map.store m key vs) other = Map.index m other := by
  induction m with
  | nil =>
    have h2 : ¬ key = other := fun e => h e.symm
    simp [Map.store, Map.index, h2]
  | cons entry rest ih =>
    obtain ⟨k, old⟩ := entry
    by_cases hk : k = key
    · have h2 : ¬ key = other := fun e => h e.symm
      simp [Map.store, Map.index, hk, h2]
    · by_cases hk2 : k = other
      · subst hk2
        simp [Map.store, Map.index, hk]
      · simp [Map.store, Map.index, hk, hk2, ih]

theorem Map.mem_store (m : Map) (key : String) (vs : List String) (entry : String × List String)
    (h : entry ∈ Map.store m key vs) : entry ∈ m ∨ entry = (key, vs) := by
  induction m with
  | nil => simpa [Map.store] using h
  | cons head rest ih =>
    obtain ⟨k, old⟩ := head
    by_cases hk : k = key
    · simp only [Map.store, hk, if_true, List.mem_cons] at h
      rcases h with h | h
      · exact Or.inr h
      · exact Or.inl (List.mem_cons_of_mem _ h)
    · simp only [Map.store, hk, if_false, List.mem_cons] at h
      rcases h with h | h
      · exact Or.inl (h ▸ List.mem_cons_self _ _)
      · rcases ih h with h2 | h2
        · exact Or.inl (List.mem_cons_of_mem _ h2)
        · exact Or.inr h2

theorem Map.keys_store (m : Map) (key : String) (vs : List String) :
    (Map.store m key vs).map Prod.fst =
      if key ∈ m.map Prod.fst then m.map Prod.fst else m.map Prod.fst ++ [key] := by
  induction m with
  | nil => simp [Map.store]
  | cons head rest ih =>
    obtain ⟨k, old⟩ := head
    by_cases hk : k = key
    · simp [Map.store, hk]
    · have hk2 : ¬ key = k := fun e => hk e.symm
      simp only [Map.store, hk, if_false, List.map_cons, ih, List.mem_cons, hk2, false_or]
      split <;> simp

theorem Map.store_ne_nil (m : Map) (key : String) (vs : List String) :
    Map.store m key vs ≠ [] := by
  cases m with
  | nil => simp [Map.store]
  | cons head rest =>
    obtain ⟨k, old⟩ := head
    by_cases hk : k = key <;> simp [Map.store, hk]

theorem errors.index_Add_same (e : errors) (field message : String) :
    Map.index (e.Add field message) field = Map.index e field ++ [message] := by
  simp [errors.Add, Map.index_store_same]

theorem errors.index_Add_other (e : errors) (field message other : String)
    (h : other ≠ field) : Map.index (e.Add field message) other = Map.index e other := by
  simp [errors.Add, Map.index_store_other _ _ _ _ h]

theorem TrimSpace_eq_empty_iff (s : String) :
    TrimSpace s = "" ↔ ∀ c ∈ s.data, IsSpace c = true := by
  have key : ∀ l : List Char, (l.dropWhile IsSpace).reverse.dropWhile IsSpace = [] ↔
      ∀ c ∈ l, IsSpace c = true := by
    intro l
    rw [List.dropWhile_eq_nil_iff]
    constructor
    · intro h
      have h2 : l.dropWhile IsSpace = [] := by
        cases hd : l.dropWhile IsSpace with
        | nil => rfl
        | cons a rest =>
          have ha : IsSpace a = true := h a (by simp [hd])
          have hna := List.head_dropWhile_not IsSpace l (by simp [hd])
          simp [hd, ha] at hna
      exact List.dropWhile_eq_nil_iff.mp h2
    · intro h
      have h2 : l.dropWhile IsSpace = [] := List.dropWhile_eq_nil_iff.mpr h
      simp [h2]
  unfold TrimSpace
  rw [← key s.data]
  constructor
  · intro h
    have h2 := congrArg String.data h
    simpa using h2
  · intro h
    rw [h]
    rfl

/-- The rule calls change the form only through `errors.Add`. -/
theorem Form.call_induction (P : Form → Prop)
    (hAdd : ∀ (g : Form) (field message : String),
      P g → P { g with Errors := g.Errors.Add field message })
    (f : Form) (r : Rule) (hf : P f) : P (f.call r) := by
  cases r with
  | Required fields =>
    simp only [Form.call, Form.Required]
    induction fields generalizing f with
    | nil => simpa using hf
    | cons field rest ih =>
      simp only [List.foldl_cons]
      apply ih
      unfold Form.requiredStep
      simp only
      split
      · exact hAdd _ _ _ hf
      · exact hf
  | MinLength field d =>
    simp only [Form.call, Form.MinLength]
    split
    · exact hf
    · split
      · exact hAdd _ _ _ hf
      · exact hf
  | MaxLength field d =>
    simp only [Form.call, Form.MaxLength]
    split
    · exact hf
    · split
      · exact hAdd _ _ _ hf
      · exact hf
  | MatchesPattern field pattern =>
    simp only [Form.call, Form.MatchesPattern]
    split
    · exact hf
    · split
      · exact hAdd _ _ _ hf
      · exact hf
  | PermittedValues field opts =>
    simp only [Form.call, Form.PermittedValues]
    split
    · exact hf
    · split
      · exact hf
      · exact hAdd _ _ _ hf

theorem Form.calls_induction (P : Form → Prop)
    (hAdd : ∀ (g : Form) (field message : String),
      P g → P { g with Errors := g.Errors.Add field message })
    (rules : List Rule) (f : Form) (hf : P f) : P (f.calls rules) := by
  induction rules generalizing f with
  | nil => simpa [Form.calls] using hf
  | cons r rest ih =>
    simp only [Form.calls, List.foldl_cons]
    exact ih _ (Form.call_induction P hAdd f r hf)

theorem Form.requiredStep_blank (f : Form) (x : String)
    (h : ∀ c ∈ (f.Get x).data, IsSpace c = true) :
    f.Required [x] = { f with Errors := f.Errors.Add x "This field cannot be blank" } := by
  have ht : TrimSpace (f.Get x) = "" := (TrimSpace_eq_empty_iff _).mpr h
  simp [Form.Required, Form.requiredStep, ht]

theorem Form.appendsOne_Add (f : Form) (field message : String) :
    f.appendsOne { f with Errors := f.Errors.Add field message } field message :=
  ⟨rfl, errors.index_Add_same _ _ _, fun _ h => errors.index_Add_other _ _ _ _ h⟩

theorem utf8ByteSize_go_ge (l : List Char) (h : ∀ c ∈ l, 2 ≤ c.utf8Size) :
    2 * l.length ≤ String.utf8ByteSize.go l := by
  induction l with
  | nil => simp [String.utf8ByteSize.go]
  | cons c rest ih =>
    have h1 := h c (List.mem_cons_self _ _)
    have h2 := ih (fun d hd => h d (List.mem_cons_of_mem _ hd))
    simp only [String.utf8ByteSize.go, List.length_cons]
    omega

/-! ## Lemmas on the matcher -/

theorem Regex.starAux_suffix (f : List Char → List (List Char))
    (hf : ∀ t u, u ∈ f t → u <:+ t) (fuel : Nat) (t u : List Char)
    (h : u ∈ Regex.starAux f fuel t) : u <:+ t := by
  induction fuel generalizing t with
  | zero =>
    simp only [Regex.starAux, List.mem_singleton] at h
    exact h ▸ List.suffix_refl _
  | succ fuel ih =>
    simp only [Regex.starAux, List.mem_cons, List.mem_flatMap, List.mem_filter] at h
    rcases h with h | ⟨v, ⟨hv, _⟩, hu⟩
    · exact h ▸ List.suffix_refl _
    · exact (ih v hu).trans (hf t v hv)

theorem Regex.exactly_suffix (f : List Char → List (List Char))
    (hf : ∀ t u, u ∈ f t → u <:+ t) (k : Nat) (t u : List Char)
    (h : u ∈ Regex.exactly f k t) : u <:+ t := by
  induction k generalizing t with
  | zero =>
    simp only [Regex.exactly, List.mem_singleton] at h
    exact h ▸ List.suffix_refl _
  | succ k ih =>
    simp only [Regex.exactly, List.mem_flatMap] at h
    obtain ⟨v, hv, hu⟩ := h
    exact (ih v hu).trans (hf t v hv)

theorem Regex.atMost_suffix (f : List Char → List (List Char))
    (hf : ∀ t u, u ∈ f t → u <:+ t) (k : Nat) (t u : List Char)
    (h : u ∈ Regex.atMost f k t) : u <:+ t := by
  induction k generalizing t with
  | zero =>
    simp only [Regex.atMost, List.mem_singleton] at h
    exact h ▸ List.suffix_refl _
  | succ k ih =>
    simp only [Regex.atMost, List.mem_cons, List.mem_flatMap] at h
    rcases h with h | ⟨v, hv, hu⟩
    · exact h ▸ List.suffix_refl _
    · exact (ih v hu).trans (hf t v hv)

/-- The fuel `t.length` that `Regex.step` gives to `Regex.starAux` is enough:
with that much fuel or more, the bounded repetition finds exactly the suffixes
that the unbounded repetition reaches. -/
theorem Regex.mem_starAux_iff (f : List Char → List (List Char)) (fuel : Nat)
    (t u : List Char) (hfuel : t.length ≤ fuel) :
    u ∈ Regex.starAux f fuel t ↔ Regex.Repeats f t u := by
  constructor
  · intro h
    clear hfuel
    induction fuel generalizing t with
    | zero =>
      simp only [Regex.starAux, List.mem_singleton] at h
      rw [h]
      exact Regex.Repeats.done t
    | succ fuel ih =>
      simp only [Regex.starAux, List.mem_cons, List.mem_flatMap, List.mem_filter,
        decide_eq_true_eq] at h
      rcases h with h | ⟨v, ⟨hv, hlen⟩, hu⟩
      · rw [h]
        exact Regex.Repeats.done t
      · exact Regex.Repeats.more t v u hv hlen (ih v hu)
  · intro h
    induction h generalizing fuel with
    | done t =>
      cases fuel with
      | zero => simp [Regex.starAux]
      | succ fuel => simp [Regex.starAux]
    | more t v u hv hlen _ ih =>
      cases fuel with
      | zero => omega
      | succ fuel =>
        simp only [Regex.starAux, List.mem_cons, List.mem_flatMap, List.mem_filter,
          decide_eq_true_eq]
        exact Or.inr ⟨v, ⟨hv, hlen⟩, ih fuel (by omega)⟩

/-- A match leaves a suffix of the suffix it starts at. -/
theorem Regex.step_suffix (n : Nat) (re : Regex) :
    ∀ t u : List Char, u ∈ re.step n t → u <:+ t := by
  induction re with
  | bot =>
    intro t u h
    simp only [Regex.step] at h
    split at h
    · simp only [List.mem_singleton] at h
      exact h ▸ List.suffix_refl _
    · simp at h
  | eot =>
    intro t u h
    simp only [Regex.step] at h
    split at h
    · simp only [List.mem_singleton] at h
      exact h ▸ List.suffix_refl _
    · simp at h
  | lit c =>
    intro t u h
    cases t with
    | nil => simp [Regex.step] at h
    | cons d rest =>
      simp only [Regex.step] at h
      split at h
      · simp only [List.mem_singleton] at h
        exact h ▸ List.suffix_cons _ _
      · simp at h
  | cls ranges =>
    intro t u h
    cases t with
    | nil => simp [Regex.step] at h
    | cons d rest =>
      simp only [Regex.step] at h
      split at h
      · simp only [List.mem_singleton] at h
        exact h ▸ List.suffix_cons _ _
      · simp at h
  | cat a b iha ihb =>
    intro t u h
    simp only [Regex.step, List.mem_flatMap] at h
    obtain ⟨v, hv, hu⟩ := h
    exact (ihb v u hu).trans (iha t v hv)
  | opt a iha =>
    intro t u h
    simp only [Regex.step, List.mem_cons] at h
    rcases h with h | h
    · exact h ▸ List.suffix_refl _
    · exact iha t u h
  | star a iha =>
    intro t u h
    simp only [Regex.step] at h
    exact Regex.starAux_suffix _ iha _ t u h
  | plus a iha =>
    intro t u h
    simp only [Regex.step, List.mem_flatMap] at h
    obtain ⟨v, hv, hu⟩ := h
    exact (Regex.starAux_suffix _ iha _ v u hu).trans (iha t v hv)
  | rep a lo hi iha =>
    intro t u h
    simp only [Regex.step, List.mem_flatMap] at h
    obtain ⟨v, hv, hu⟩ := h
    exact (Regex.atMost_suffix _ iha _ v u hu).trans (Regex.exactly_suffix _ iha _ t v hv)

theorem Regex.step_cls (n : Nat) (ranges : List (Char × Char)) (t u : List Char)
    (h : u ∈ (Regex.cls ranges).step n t) : ∃ d, t = d :: u ∧ inClass ranges d = true := by
  cases t with
  | nil => simp [Regex.step] at h
  | cons d rest =>
    simp only [Regex.step] at h
    split at h
    · rename_i hd
      simp only [List.mem_singleton] at h
      exact ⟨d, by rw [h], hd⟩
    · simp at h

theorem Regex.step_lit (n : Nat) (c : Char) (t u : List Char)
    (h : u ∈ (Regex.lit c).step n t) : t = c :: u := by
  cases t with
  | nil => simp [Regex.step] at h
  | cons d rest =>
    simp only [Regex.step] at h
    split at h
    · rename_i hd
      simp only [List.mem_singleton] at h
      rw [h, hd]
    · simp at h

/-- A match of a domain label ends with a letter or a digit. -/
theorem domainLabel_ends_alnum (n : Nat) (t u : List Char)
    (h : u ∈ domainLabel.step n t) :
    ∃ a c, t = a ++ c :: u ∧ inClass [('a', 'z'), ('A', 'Z'), ('0', '9')] c = true := by
  simp only [domainLabel, Regex.step, List.mem_flatMap, List.mem_cons] at h
  obtain ⟨v, hv, hu⟩ := h
  obtain ⟨d, hd, hdc⟩ := Regex.step_cls n _ t v (by simpa [alnum, Regex.step] using hv)
  rcases hu with hu | ⟨w, hw, hu⟩
  · exact ⟨[], d, by simp [hd, hu], hdc⟩
  · obtain ⟨e, he, hec⟩ := Regex.step_cls n _ w u (by simpa [alnum, Regex.step] using hu)
    have hsuf : w <:+ v :=
      Regex.step_suffix n (.rep alnumHyphen 0 61) v w (by simpa [Regex.step] using hw)
    obtain ⟨p, hp⟩ := hsuf
    exact ⟨d :: p, e, by simp [hd, ← hp, he], hec⟩

/-- Any number of `\.label` leaves the suffix where it is or ends with a letter
or a digit. -/
theorem dotLabels_ends_alnum (n fuel : Nat) (t u : List Char)
    (h : u ∈ Regex.starAux ((Regex.cat (.lit '.') domainLabel).step n) fuel t) :
    u = t ∨ ∃ a c, t = a ++ c :: u ∧
      inClass [('a', 'z'), ('A', 'Z'), ('0', '9')] c = true := by
  induction fuel generalizing t with
  | zero =>
    simp only [Regex.starAux, List.mem_singleton] at h
    exact Or.inl h
  | succ fuel ih =>
    simp only [Regex.starAux, List.mem_cons, List.mem_flatMap, List.mem_filter] at h
    rcases h with h | ⟨v, ⟨hv, _⟩, hu⟩
    · exact Or.inl h
    · right
      rw [Regex.step, List.mem_flatMap] at hv
      obtain ⟨w, hw, hv⟩ := hv
      have hdot := Regex.step_lit n '.' t w hw
      obtain ⟨a, c, hac, hc⟩ := domainLabel_ends_alnum n w v hv
      rcases ih v hu with h2 | ⟨a2, c2, hac2, hc2⟩
      · exact ⟨'.' :: a, c, by simp [hdot, hac, h2], hc⟩
      · exact ⟨'.' :: (a ++ c :: a2), c2, by simp [hdot, hac, hac2], hc2⟩

/-- The shape of the texts `EmailRX` matches: a first character of the local
class, later an `@`, and a letter or digit at the end. -/
theorem emailPattern_shape (s : String) (h : emailPattern.MatchString s = true) :
    ∃ d a b c, s.data = d :: (a ++ '@' :: (b ++ [c])) ∧
      inClass ([('a', 'z'), ('A', 'Z'), ('0', '9')] ++
        ".!#$%&'*+/=?^_`\x7b|\x7d~-".data.map fun c => (c, c)) d = true ∧
      inClass [('a', 'z'), ('A', 'Z'), ('0', '9')] c = true := by
  simp only [Regex.MatchString, List.any_eq_true, List.mem_tails, Bool.not_eq_true',
    List.isEmpty_eq_false] at h
  obtain ⟨t, ht, hne⟩ := h
  obtain ⟨u, hu⟩ := List.exists_mem_of_ne_nil _ hne
  simp only [emailPattern] at hu
  rw [Regex.step, List.mem_flatMap] at hu
  obtain ⟨v0, hv0, hu⟩ := hu
  have hts : v0 = s.data := by
    simp only [Regex.step] at hv0
    split at hv0
    · rename_i hlen
      simp only [List.mem_singleton] at hv0
      rw [hv0]
      exact List.IsSuffix.eq_of_length ht hlen
    · simp at hv0
  subst hts
  rw [Regex.step, List.mem_flatMap] at hu
  obtain ⟨v1, hv1, hu⟩ := hu
  rw [Regex.step, List.mem_flatMap] at hv1
  obtain ⟨w, hw, hv1⟩ := hv1
  obtain ⟨d, hd, hdc⟩ := Regex.step_cls _ _ _ _ (by simpa [localPart] using hw)
  obtain ⟨p, hp⟩ := Regex.starAux_suffix _ (Regex.step_suffix _ localPart) _ w v1 hv1
  rw [Regex.step, List.mem_flatMap] at hu
  obtain ⟨v2, hv2, hu⟩ := hu
  have hat := Regex.step_lit _ _ _ _ hv2
  rw [Regex.step, List.mem_flatMap] at hu
  obtain ⟨v3, hv3, hu⟩ := hu
  obtain ⟨a, c, hac, hc⟩ := domainLabel_ends_alnum _ _ _ hv3
  rw [Regex.step, List.mem_flatMap] at hu
  obtain ⟨v4, hv4, hu⟩ := hu
  have hv4nil : v4 = [] := by
    simp only [Regex.step] at hu
    split at hu
    · rename_i hemp
      simpa using hemp
    · simp at hu
  subst hv4nil
  rw [Regex.step] at hv4
  rcases dotLabels_ends_alnum _ _ _ _ hv4 with h2 | ⟨a2, c2, hac2, hc2⟩
  · exact ⟨d, p, a, c, by rw [hd, ← hp, hat, hac, ← h2], hdc, hc⟩
  · exact ⟨d, p, a ++ c :: a2, c2, by rw [hd, ← hp, hat, hac, hac2]; simp, hdc, hc2⟩

theorem Form.Valid_Add (f : Form) (field message : String) :
    Form.Valid { f with Errors := f.Errors.Add field message } = false := by
  have h := Map.store_ne_nil f.Errors field (Map.index f.Errors field ++ [message])
  simp only [Form.Valid, errors.Add]
  cases hs : Map.store f.Errors field (Map.index f.Errors field ++ [message]) with
  | nil => exact absurd hs h
  | cons entry rest => rfl

/-! ## The claims -/

/-- C1: on a field `x` whose value is empty or consists of white space only,
`Required(x)` leaves the values alone, appends exactly the one message
"This field cannot be blank" to the messages of `x` and changes the messages of
no other field, and `k` calls in a row append `k` copies of that message (no
deduplication); when the trimmed value is not empty the call changes nothing. -/
theorem Required_appends_blank_message (f : Form) (x : String) :
    ((∀ c ∈ (f.Get x).data, IsSpace c = true) →
      (f.Required [x]).Values = f.Values ∧
      Map.index (f.Required [x]).Errors x =
        Map.index f.Errors x ++ ["This field cannot be blank"] ∧
      (∀ y, y ≠ x → Map.index (f.Required [x]).Errors y = Map.index f.Errors y) ∧
      ∀ k : Nat, Map.index ((fun g : Form => g.Required [x])^[k] f).Errors x =
        Map.index f.Errors x ++ List.replicate k "This field cannot be blank") ∧
    (TrimSpace (f.Get x) ≠ "" → f.Required [x] = f) := by
  refine ⟨fun h => ?_, fun h => ?_⟩
  · have one : ∀ g : Form, g.Values = f.Values →
        g.Required [x] = { g with Errors := g.Errors.Add x "This field cannot be blank" } := by
      intro g hg
      apply Form.requiredStep_blank
      simpa [Form.Get, hg] using h
    refine ⟨?_, ?_, ?_, ?_⟩
    · rw [one f rfl]
    · rw [one f rfl]
      exact errors.index_Add_same _ _ _
    · intro y hy
      rw [one f rfl]
      exact errors.index_Add_other _ _ _ _ hy
    · intro k
      have both : ((fun g : Form => g.Required [x])^[k] f).Values = f.Values ∧
          Map.index ((fun g : Form => g.Required [x])^[k] f).Errors x =
            Map.index f.Errors x ++ List.replicate k "This field cannot be blank" := by
        induction k with
        | zero => simp
        | succ k ih =>
          rw [Function.iterate_succ_apply', one _ ih.1]
          refine ⟨ih.1, ?_⟩
          simp only
          rw [errors.index_Add_same, ih.2, List.replicate_succ', List.append_assoc]
      exact both.2
  · simp [Form.Required, Form.requiredStep, h]

/-- Witness of C1: the field `x` holding a space and a tab, and the field `y`
holding text. -/
theorem Required_appends_blank_message_witness :
    Map.index ((New [("x", [" \t"]), ("y", ["a"])]).Required ["x"]).Errors "x" =
        ["This field cannot be blank"] ∧
      Map.index ((fun g : Form => g.Required ["x"])^[2]
        (New [("x", [" \t"]), ("y", ["a"])])).Errors "x" =
        ["This field cannot be blank", "This field cannot be blank"] ∧
      (New [("x", [" \t"]), ("y", ["a"])]).Required ["y"] =
        New [("x", [" \t"]), ("y", ["a"])] :=
  ⟨((Required_appends_blank_message (New [("x", [" \t"]), ("y", ["a"])]) "x").1
      (by decide)).2.1,
    ((Required_appends_blank_message (New [("x", [" \t"]), ("y", ["a"])]) "x").1
      (by decide)).2.2.2 2,
    (Required_appends_blank_message (New [("x", [" \t"]), ("y", ["a"])]) "y").2
      (by decide)⟩

/-- C2: on a field whose submitted value is the empty string or is absent
(`Get` returns the empty string), `MinLength`, `MaxLength`, `MatchesPattern` and
`PermittedValues` leave the form, its errors and its values, as it was, for all
arguments. -/
theorem rules_skip_empty_value (f : Form) (field : String) (h : f.Get field = "") :
    (∀ d : Int, f.MinLength field d = f) ∧
    (∀ d : Int, f.MaxLength field d = f) ∧
    (∀ pattern : Regexp, f.MatchesPattern field pattern = f) ∧
    (∀ opts : List String, f.PermittedValues field opts = f) := by
  refine ⟨?_, ?_, ?_, ?_⟩
  · intro d
    simp [Form.MinLength, h]
  · intro d
    simp [Form.MaxLength, h]
  · intro pattern
    simp [Form.MatchesPattern, h]
  · intro opts
    simp [Form.PermittedValues, h]

/-- Witness of C2: a form with an error already recorded, the field `title`
submitted empty and the field `body` absent. -/
theorem rules_skip_empty_value_witness :
    (Form.mk [("title", [""])] [("title", ["This field cannot be blank"])]).MinLength
        "title" 5 =
      Form.mk [("title", [""])] [("title", ["This field cannot be blank"])] ∧
    (Form.mk [("title", [""])] [("title", ["This field cannot be blank"])]).PermittedValues
        "body" [] =
      Form.mk [("title", [""])] [("title", ["This field cannot be blank"])] :=
  ⟨(rules_skip_empty_value
      (Form.mk [("title", [""])] [("title", ["This field cannot be blank"])]) "title"
      (by decide)).1 5,
    (rules_skip_empty_value
      (Form.mk [("title", [""])] [("title", ["This field cannot be blank"])]) "body"
      (by decide)).2.2.2 []⟩

/-- C3: a form made by `New` is valid, and after any sequence of rule calls on
it `Valid()` is true exactly when every field has an empty message list; the
error map then has no key with an empty message list and no key twice. -/
theorem Valid_iff_no_messages (data : Values) (rules : List Rule) :
    (New data).Valid = true ∧
    (((New data).calls rules).Valid = true ↔
      ∀ field, Map.index ((New data).calls rules).Errors field = []) ∧
    (∀ entry ∈ ((New data).calls rules).Errors, entry.2 ≠ []) ∧
    (((New data).calls rules).Errors.map Prod.fst).Nodup := by
  have inv : (∀ entry ∈ ((New data).calls rules).Errors, entry.2 ≠ []) ∧
      (((New data).calls rules).Errors.map Prod.fst).Nodup := by
    apply Form.calls_induction
      (fun g => (∀ entry ∈ g.Errors, entry.2 ≠ []) ∧ (g.Errors.map Prod.fst).Nodup)
    · intro g field message hg
      refine ⟨?_, ?_⟩
      · intro entry hentry
        rcases Map.mem_store _ _ _ _ hentry with h | h
        · exact hg.1 entry h
        · simp [h]
      · show ((Map.store g.Errors field _).map Prod.fst).Nodup
        rw [Map.keys_store]
        split
        · exact hg.2
        · rename_i hnot
          exact List.Nodup.append hg.2 (List.nodup_singleton _) (by simpa using hnot)
    · simp [New]
  refine ⟨by simp [New, Form.Valid], ?_, inv.1, inv.2⟩
  constructor
  · intro hv field
    have he : ((New data).calls rules).Errors = [] := by
      simpa [Form.Valid] using hv
    simp [he, Map.index]
  · intro hall
    cases he : ((New data).calls rules).Errors with
    | nil => simp [Form.Valid, he]
    | cons entry rest =>
      exfalso
      have h1 := inv.1 entry (by simp [he])
      have h2 := hall entry.1
      rw [he] at h2
      obtain ⟨k, ms⟩ := entry
      simp [Map.index] at h2
      exact h1 h2

/-- C4: on a field whose value is not empty, `MinLength(field, n)` appends
exactly the one message "This field is too short (minimum is n)" when the number
of characters (code points) of the value is less than `n` and changes nothing
otherwise; `MaxLength(field, n)` appends exactly the one message "This field is
too long (maximum is n characters)" when the number of characters is greater
than `n` and changes nothing otherwise. A value of `n` characters that all take
two bytes or more, whose byte count is therefore greater than `n`, passes both
`MinLength(field, n)` and `MaxLength(field, n)`. -/
theorem length_rules_count_characters (f : Form) (field : String) (n : Int)
    (h : f.Get field ≠ "") :
    (((f.Get field).data.length : Int) < n →
      f.appendsOne (f.MinLength field n) field
        ("This field is too short (minimum is " ++ formatInt n ++ ")")) ∧
    (¬ ((f.Get field).data.length : Int) < n → f.MinLength field n = f) ∧
    (((f.Get field).data.length : Int) > n →
      f.appendsOne (f.MaxLength field n) field
        ("This field is too long (maximum is " ++ formatInt n ++ " characters)")) ∧
    (¬ ((f.Get field).data.length : Int) > n → f.MaxLength field n = f) ∧
    (((f.Get field).data.length : Int) = n → (∀ c ∈ (f.Get field).data, 2 ≤ c.utf8Size) →
      n < ((f.Get field).utf8ByteSize : Int) ∧
      f.MinLength field n = f ∧ f.MaxLength field n = f) := by
  refine ⟨?_, ?_, ?_, ?_, ?_⟩
  · intro hlt
    have hlt2 : RuneCountInString (f.Get field) < n := hlt
    simp only [Form.MinLength, h, if_false, hlt2, if_true]
    exact Form.appendsOne_Add _ _ _
  · intro hlt
    have hlt2 : ¬ RuneCountInString (f.Get field) < n := hlt
    simp [Form.MinLength, hlt2]
  · intro hgt
    have hgt2 : RuneCountInString (f.Get field) > n := hgt
    simp only [Form.MaxLength, h, if_false, hgt2, if_true]
    exact Form.appendsOne_Add _ _ _
  · intro hgt
    have hgt2 : ¬ RuneCountInString (f.Get field) > n := hgt
    simp [Form.MaxLength, hgt2]
  · intro heq hmulti
    have hmin : ¬ RuneCountInString (f.Get field) < n := by
      show ¬ ((f.Get field).data.length : Int) < n
      omega
    have hmax : ¬ RuneCountInString (f.Get field) > n := by
      show ¬ ((f.Get field).data.length : Int) > n
      omega
    refine ⟨?_, by simp [Form.MinLength, hmin], by simp [Form.MaxLength, hmax]⟩
    have hbytes := utf8ByteSize_go_ge (f.Get field).data hmulti
    have hpos : 0 < (f.Get field).data.length := by
      cases hd : (f.Get field).data with
      | nil => exact absurd (String.ext hd) h
      | cons c rest => simp
    have hsize : (f.Get field).utf8ByteSize = String.utf8ByteSize.go (f.Get field).data := by
      cases f.Get field
      rfl
    rw [hsize]
    omega

/-- Witness of C4: the value of three two-byte characters against the bounds 4,
2 and 3. -/
theorem length_rules_count_characters_witness :
    (New [("name", ["\u00e9\u00e8\u00ea"])]).appendsOne
        ((New [("name", ["\u00e9\u00e8\u00ea"])]).MinLength "name" 4) "name"
        ("This field is too short (minimum is " ++ formatInt 4 ++ ")") ∧
      (New [("name", ["\u00e9\u00e8\u00ea"])]).appendsOne
        ((New [("name", ["\u00e9\u00e8\u00ea"])]).MaxLength "name" 2) "name"
        ("This field is too long (maximum is " ++ formatInt 2 ++ " characters)") ∧
      ((3 : Int) < (((New [("name", ["\u00e9\u00e8\u00ea"])]).Get "name").utf8ByteSize : Int) ∧
        (New [("name", ["\u00e9\u00e8\u00ea"])]).MinLength "name" 3 =
          New [("name", ["\u00e9\u00e8\u00ea"])] ∧
        (New [("name", ["\u00e9\u00e8\u00ea"])]).MaxLength "name" 3 =
          New [("name", ["\u00e9\u00e8\u00ea"])]) :=
  ⟨(length_rules_count_characters (New [("name", ["\u00e9\u00e8\u00ea"])]) "name" 4
      (by decide)).1 (by decide),
    (length_rules_count_characters (New [("name", ["\u00e9\u00e8\u00ea"])]) "name" 2
      (by decide)).2.2.1 (by decide),
    (length_rules_count_characters (New [("name", ["\u00e9\u00e8\u00ea"])]) "name" 3
      (by decide)).2.2.2.2 (by decide) (by decide)⟩

/-- C5, as stated, fails: the value " bob@example.com" is not empty and its
trimmed value "bob@example.com" matches `EmailRX`, yet `MatchesPattern` appends
"This field is invalid", since it matches the value as submitted. -/
theorem MatchesPattern_trimmed_counterexample :
    (New [("email", [" bob@example.com"])]).Get "email" ≠ "" ∧
    EmailRX.MatchString (TrimSpace ((New [("email", [" bob@example.com"])]).Get "email")) =
      true ∧
    Map.index ((New [("email", [" bob@example.com"])]).MatchesPattern "email" EmailRX).Errors
      "email" = ["This field is invalid"] := by
  decide

/-- C5, amended: on a field whose value is not empty, `MatchesPattern(field,
pattern)` appends exactly the one message "This field is invalid" when the value
as submitted, white space included, fails the pattern, and changes nothing when
the value as submitted matches the pattern. -/
theorem MatchesPattern_untrimmed (f : Form) (field : String) (pattern : Regexp)
    (h : f.Get field ≠ "") :
    (pattern.MatchString (f.Get field) = false →
      f.appendsOne (f.MatchesPattern field pattern) field "This field is invalid") ∧
    (pattern.MatchString (f.Get field) = true → f.MatchesPattern field pattern = f) := by
  refine ⟨?_, ?_⟩
  · intro hm
    simp only [Form.MatchesPattern, h, if_false, hm, Bool.not_false, if_true]
    exact Form.appendsOne_Add _ _ _
  · intro hm
    simp [Form.MatchesPattern, hm]

/-- Witness of C5, amended: an address with a leading space fails `EmailRX`, the
address alone matches it. -/
theorem MatchesPattern_untrimmed_witness :
    (New [("email", [" bob@example.com"])]).appendsOne
        ((New [("email", [" bob@example.com"])]).MatchesPattern "email" EmailRX) "email"
        "This field is invalid" ∧
      (New [("email", ["bob@example.com"])]).MatchesPattern "email" EmailRX =
        New [("email", ["bob@example.com"])] :=
  ⟨(MatchesPattern_untrimmed (New [("email", [" bob@example.com"])]) "email" EmailRX
      (by decide)).1 (by decide),
    (MatchesPattern_untrimmed (New [("email", ["bob@example.com"])]) "email" EmailRX
      (by decide)).2 (by decide)⟩

/-- C6: on a field whose value is not empty, `PermittedValues(field, opts...)`
appends exactly the one message "This field is invalid" when the value equals no
element of `opts`, so also when `opts` is empty, and changes nothing when the
value equals an element of `opts`. -/
theorem PermittedValues_exact_option (f : Form) (field : String) (opts : List String)
    (h : f.Get field ≠ "") :
    (f.Get field ∉ opts →
      f.appendsOne (f.PermittedValues field opts) field "This field is invalid") ∧
    (f.Get field ∈ opts → f.PermittedValues field opts = f) ∧
    f.appendsOne (f.PermittedValues field []) field "This field is invalid" := by
  have hany : ∀ l : List String,
      (l.any (fun opt => decide (f.Get field = opt)) = true ↔ f.Get field ∈ l) := by
    intro l
    simp
  refine ⟨?_, ?_, ?_⟩
  · intro hn
    have hfalse : ¬ (opts.any (fun opt => decide (f.Get field = opt)) = true) :=
      fun hc => hn ((hany opts).mp hc)
    simp only [Form.PermittedValues, h, if_false, hfalse]
    exact Form.appendsOne_Add _ _ _
  · intro hm
    have htrue := (hany opts).mpr hm
    simp only [Form.PermittedValues, h, if_false, htrue, if_true]
  · simp only [Form.PermittedValues, h, if_false, List.any_nil, Bool.false_eq_true]
    exact Form.appendsOne_Add _ _ _

/-- Witness of C6: the value "365" among the options "365", "7", "1", and the
value "36" among them. -/
theorem PermittedValues_exact_option_witness :
    (New [("expires", ["36"])]).appendsOne
        ((New [("expires", ["36"])]).PermittedValues "expires" ["365", "7", "1"]) "expires"
        "This field is invalid" ∧
      (New [("expires", ["365"])]).PermittedValues "expires" ["365", "7", "1"] =
        New [("expires", ["365"])] :=
  ⟨(PermittedValues_exact_option (New [("expires", ["36"])]) "expires" ["365", "7", "1"]
      (by decide)).1 (by decide),
    (PermittedValues_exact_option (New [("expires", ["365"])]) "expires" ["365", "7", "1"]
      (by decide)).2.1 (by decide)⟩

theorem Form.Required_growth (fields : List String) (f : Form) (field : String) :
    (Map.index (f.Required fields).Errors field).length ≤
      (Map.index f.Errors field).length + fields.count field := by
  induction fields generalizing f with
  | nil => simp [Form.Required]
  | cons x rest ih =>
    have hstep : (Map.index (f.requiredStep x).Errors field).length ≤
        (Map.index f.Errors field).length + if x = field then 1 else 0 := by
      unfold Form.requiredStep
      simp only
      split
      · by_cases hx : x = field
        · subst hx
          simp [errors.index_Add_same]
        · have hx2 : field ≠ x := fun e => hx e.symm
          simp [errors.index_Add_other _ _ _ _ hx2]
      · omega
    have hrest := ih (f.requiredStep x)
    have hcount : (x :: rest).count field = rest.count field + if x = field then 1 else 0 := by
      rw [List.count_cons]
      simp
    simp only [Form.Required, List.foldl_cons] at hrest ⊢
    omega

theorem Form.Add_growth (f : Form) (target field message : String) :
    (Map.index (f.Errors.Add target message) field).length ≤
      (Map.index f.Errors field).length + 1 := by
  by_cases hx : field = target
  · subst hx
    simp [errors.index_Add_same]
  · simp [errors.index_Add_other _ _ _ _ hx]

/-- C7, as stated, fails: `Required("x", "x")` on a form without the field `x`
appends two messages to `x` in the one call. -/
theorem Required_repeated_name_counterexample :
    (Map.index (New []).Errors "x").length = 0 ∧
    (Map.index ((New []).call (Rule.Required ["x", "x"])).Errors "x").length = 2 := by
  decide

/-- C7, amended: during one call of `MinLength`, `MaxLength`, `MatchesPattern`,
`PermittedValues`, or of `Required` with pairwise distinct field names, the
message list of each field grows by at most one message; during one call of
`Required` with any names it grows by at most the number of times the field is
named. -/
theorem rule_call_growth (f : Form) (field : String) :
    (∀ r : Rule, (∀ fields, r = Rule.Required fields → fields.Nodup) →
      (Map.index (f.call r).Errors field).length ≤ (Map.index f.Errors field).length + 1) ∧
    (∀ fields : List String,
      (Map.index (f.call (Rule.Required fields)).Errors field).length ≤
        (Map.index f.Errors field).length + fields.count field) := by
  refine ⟨?_, fun fields => Form.Required_growth fields f field⟩
  intro r hr
  cases r with
  | Required fields =>
    have h1 := Form.Required_growth fields f field
    have h2 : fields.count field ≤ 1 := List.nodup_iff_count_le_one.mp (hr fields rfl) field
    simp only [Form.call]
    omega
  | MinLength x d =>
    simp only [Form.call, Form.MinLength]
    split
    · omega
    · split
      · exact Form.Add_growth _ _ _ _
      · omega
  | MaxLength x d =>
    simp only [Form.call, Form.MaxLength]
    split
    · omega
    · split
      · exact Form.Add_growth _ _ _ _
      · omega
  | MatchesPattern x pattern =>
    simp only [Form.call, Form.MatchesPattern]
    split
    · omega
    · split
      · exact Form.Add_growth _ _ _ _
      · omega
  | PermittedValues x opts =>
    simp only [Form.call, Form.PermittedValues]
    split
    · omega
    · split
      · omega
      · exact Form.Add_growth _ _ _ _

/-- Witness of C7, amended: `Required("title", "content")` on a form where both
are blank. -/
theorem rule_call_growth_witness :
    (Map.index ((New [("title", [""])]).call (Rule.Required ["title", "content"])).Errors
        "title").length ≤ (Map.index (New [("title", [""])]).Errors "title").length + 1 :=
  (rule_call_growth (New [("title", [""])]) "title").1 (Rule.Required ["title", "content"])
    (by
      intro fields hfields
      cases hfields
      decide)

/-- C8, as stated, fails: on the value of one space `Required` appends "This
field cannot be blank" and then `MinLength`, `MaxLength`, `MatchesPattern` and
`PermittedValues` each append a message of their own for the same field. -/
theorem rules_on_whitespace_counterexample :
    TrimSpace ((New [("x", [" "])]).Get "x") = "" ∧
    Map.index ((New [("x", [" "])]).Required ["x"]).Errors "x" =
      ["This field cannot be blank"] ∧
    Map.index (((New [("x", [" "])]).Required ["x"]).MinLength "x" 2).Errors "x" =
      ["This field cannot be blank", "This field is too short (minimum is 2)"] ∧
    Map.index (((New [("x", [" "])]).Required ["x"]).MaxLength "x" 0).Errors "x" =
      ["This field cannot be blank", "This field is too long (maximum is 0 characters)"] ∧
    Map.index (((New [("x", [" "])]).Required ["x"]).MatchesPattern "x" EmailRX).Errors "x" =
      ["This field cannot be blank", "This field is invalid"] ∧
    Map.index (((New [("x", [" "])]).Required ["x"]).PermittedValues "x" ["a"]).Errors "x" =
      ["This field cannot be blank", "This field is invalid"] := by
  decide

/-- C8, amended: on a field whose value is the empty string or is absent,
`Required(field)` appends "This field cannot be blank", and on the form it
leaves a call of `MinLength`, `MaxLength`, `MatchesPattern` or
`PermittedValues` on that field, with any arguments, appends no message. -/
theorem rules_after_blank_error (f : Form) (field : String) (h : f.Get field = "") :
    f.appendsOne (f.Required [field]) field "This field cannot be blank" ∧
    (∀ d : Int, (f.Required [field]).MinLength field d = f.Required [field]) ∧
    (∀ d : Int, (f.Required [field]).MaxLength field d = f.Required [field]) ∧
    (∀ pattern : Regexp,
      (f.Required [field]).MatchesPattern field pattern = f.Required [field]) ∧
    (∀ opts : List String,
      (f.Required [field]).PermittedValues field opts = f.Required [field]) := by
  have hreq : f.Required [field] =
      { f with Errors := f.Errors.Add field "This field cannot be blank" } := by
    apply Form.requiredStep_blank
    simp [h]
  have hget : (f.Required [field]).Get field = "" := by
    rw [hreq]
    exact h
  refine ⟨?_, ?_, ?_, ?_, ?_⟩
  · rw [hreq]
    exact Form.appendsOne_Add _ _ _
  · intro d
    simp [Form.MinLength, hget]
  · intro d
    simp [Form.MaxLength, hget]
  · intro pattern
    simp [Form.MatchesPattern, hget]
  · intro opts
    simp [Form.PermittedValues, hget]

/-- Witness of C8, amended: the field `title` submitted empty. -/
theorem rules_after_blank_error_witness :
    (New [("title", [""])]).appendsOne ((New [("title", [""])]).Required ["title"]) "title"
        "This field cannot be blank" ∧
      ((New [("title", [""])]).Required ["title"]).MaxLength "title" 100 =
        (New [("title", [""])]).Required ["title"] :=
  ⟨(rules_after_blank_error (New [("title", [""])]) "title" (by decide)).1,
    (rules_after_blank_error (New [("title", [""])]) "title" (by decide)).2.2.1 100⟩

/-- C9: on a form whose value of "email" is not empty and has no "@", or
begins with "@", or ends with ".", `MatchesPattern("email", EmailRX)` appends
exactly the one message "This field is invalid" for "email" and `Valid()` is
false afterwards; on the value "bob@example.com" it changes nothing. -/
theorem EmailRX_rejects_malformed (f : Form) :
    (f.Get "email" ≠ "" →
      ('@' ∉ (f.Get "email").data ∨ (f.Get "email").data.head? = some '@' ∨
        (f.Get "email").data.getLast? = some '.') →
      f.appendsOne (f.MatchesPattern "email" EmailRX) "email" "This field is invalid" ∧
      (f.MatchesPattern "email" EmailRX).Valid = false) ∧
    (f.Get "email" = "bob@example.com" → f.MatchesPattern "email" EmailRX = f) := by
  refine ⟨?_, ?_⟩
  · intro hne hbad
    have hfail : EmailRX.MatchString (f.Get "email") = false := by
      cases hm : EmailRX.MatchString (f.Get "email") with
      | false => rfl
      | true =>
        exfalso
        obtain ⟨d, a, b, c, hdata, hd, hc⟩ := emailPattern_shape (f.Get "email") hm
        rcases hbad with hno | hhead | hlast
        · apply hno
          rw [hdata]
          simp
        · rw [hdata] at hhead
          simp only [List.head?_cons, Option.some.injEq] at hhead
          rw [hhead] at hd
          revert hd
          decide
        · rw [hdata] at hlast
          have hl : (d :: (a ++ '@' :: (b ++ [c]))).getLast? = some c := by
            have e : d :: (a ++ '@' :: (b ++ [c])) = (d :: (a ++ '@' :: b)) ++ [c] := by simp
            rw [e, List.getLast?_append]
            simp
          rw [hl] at hlast
          simp only [Option.some.injEq] at hlast
          rw [hlast] at hc
          revert hc
          decide
    simp only [Form.MatchesPattern, hne, if_false, hfail, Bool.not_false, if_true]
    exact ⟨Form.appendsOne_Add _ _ _, Form.Valid_Add _ _ _⟩
  · intro hv
    have hm : EmailRX.MatchString "bob@example.com" = true := by decide
    simp [Form.MatchesPattern, hv, hm]

/-- Witness of C9: the three malformed addresses of the signup test and the
well-formed one. -/
theorem EmailRX_rejects_malformed_witness :
    ((New [("email", ["bobexample.com"])]).appendsOne
        ((New [("email", ["bobexample.com"])]).MatchesPattern "email" EmailRX) "email"
        "This field is invalid" ∧
      ((New [("email", ["bobexample.com"])]).MatchesPattern "email" EmailRX).Valid = false) ∧
    ((New [("email", ["@example.com"])]).appendsOne
        ((New [("email", ["@example.com"])]).MatchesPattern "email" EmailRX) "email"
        "This field is invalid" ∧
      ((New [("email", ["@example.com"])]).MatchesPattern "email" EmailRX).Valid = false) ∧
    ((New [("email", ["bob@example."])]).appendsOne
        ((New [("email", ["bob@example."])]).MatchesPattern "email" EmailRX) "email"
        "This field is invalid" ∧
      ((New [("email", ["bob@example."])]).MatchesPattern "email" EmailRX).Valid = false) ∧
    (New [("email", ["bob@example.com"])]).MatchesPattern "email" EmailRX =
      New [("email", ["bob@example.com"])] :=
  ⟨(EmailRX_rejects_malformed (New [("email", ["bobexample.com"])])).1 (by decide)
      (Or.inl (by decide)),
    (EmailRX_rejects_malformed (New [("email", ["@example.com"])])).1 (by decide)
      (Or.inr (Or.inl (by decide))),
    (EmailRX_rejects_malformed (New [("email", ["bob@example."])])).1 (by decide)
      (Or.inr (Or.inr (by decide))),
    (EmailRX_rejects_malformed (New [("email", ["bob@example.com"])])).2 (by decide)⟩

/-- C10, as stated, fails: "pa$$word" has 8 characters, not 7, so
`MinLength("password", 8)` appends nothing for it and the form stays valid. -/
theorem MinLength_password_counterexample :
    RuneCountInString ((New [("password", ["pa$$word"])]).Get "password") = 8 ∧
    (New [("password", ["pa$$word"])]).MinLength "password" 8 =
      New [("password", ["pa$$word"])] ∧
    Map.index ((New [("password", ["pa$$word"])]).MinLength "password" 8).Errors "password" =
      [] ∧
    ((New [("password", ["pa$$word"])]).MinLength "password" 8).Valid = true := by
  decide

/-- C10, amended: on a form whose value of "password" is "pa$$word", which has
8 characters, `MinLength("password", 8)` changes nothing, and for every minimum
`n` greater than 8 `MinLength("password", n)` appends exactly the one message
"This field is too short (minimum is n)" for "password" and `Valid()` is then
false; on "validPa$$word" `MinLength("password", 8)` changes nothing. -/
theorem MinLength_password (f : Form) :
    (f.Get "password" = "pa$$word" →
      f.MinLength "password" 8 = f ∧
      ∀ n : Int, 8 < n →
        f.appendsOne (f.MinLength "password" n) "password"
          ("This field is too short (minimum is " ++ formatInt n ++ ")") ∧
        (f.MinLength "password" n).Valid = false) ∧
    (f.Get "password" = "validPa$$word" → f.MinLength "password" 8 = f) := by
  refine ⟨?_, ?_⟩
  · intro hv
    have hcount : RuneCountInString "pa$$word" = 8 := by decide
    have hne : ¬ ("pa$$word" = "") := by decide
    refine ⟨?_, ?_⟩
    · simp [Form.MinLength, hv, hcount]
    · intro n hn
      have hlt : RuneCountInString "pa$$word" < n := by
        rw [hcount]
        exact hn
      simp only [Form.MinLength, hv, hne, if_false, hlt, if_true]
      exact ⟨Form.appendsOne_Add _ _ _, Form.Valid_Add _ _ _⟩
  · intro hv
    have hcount : RuneCountInString "validPa$$word" = 13 := by decide
    simp [Form.MinLength, hv, hcount]

/-- Witness of C10, amended: the two passwords of the signup test, the short one
against the minimums 8 and 10. -/
theorem MinLength_password_witness :
    ((New [("password", ["pa$$word"])]).MinLength "password" 8 =
        New [("password", ["pa$$word"])] ∧
      ((New [("password", ["pa$$word"])]).appendsOne
          ((New [("password", ["pa$$word"])]).MinLength "password" 10) "password"
          ("This field is too short (minimum is " ++ formatInt 10 ++ ")") ∧
        ((New [("password", ["pa$$word"])]).MinLength "password" 10).Valid = false)) ∧
    (New [("password", ["validPa$$word"])]).MinLength "password" 8 =
      New [("password", ["validPa$$word"])] :=
  ⟨⟨((MinLength_password (New [("password", ["pa$$word"])])).1 (by decide)).1,
      ((MinLength_password (New [("password", ["pa$$word"])])).1 (by decide)).2 10
        (by decide)⟩,
    (MinLength_password (New [("password", ["validPa$$word"])])).2 (by decide)⟩

/-- C13: rule calls are append-only. For every form, every rule call and every
field, the message list of the field before the call is a prefix of its message
list after the call, and a form that is not valid is not valid after the call;
the same holds over any sequence of rule calls. -/
theorem rule_calls_append_only (f : Form) (field : String) :
    (∀ r : Rule,
      Map.index f.Errors field <+: Map.index (f.call r).Errors field ∧
      (f.Valid = false → (f.call r).Valid = false)) ∧
    (∀ rules : List Rule,
      Map.index f.Errors field <+: Map.index (f.calls rules).Errors field ∧
      (f.Valid = false → (f.calls rules).Valid = false)) := by
  have hAdd : ∀ (g : Form) (x message : String),
      (Map.index f.Errors field <+: Map.index g.Errors field ∧
        (f.Valid = false → g.Valid = false)) →
      (Map.index f.Errors field <+:
          Map.index (Form.mk g.Values (g.Errors.Add x message)).Errors field ∧
        (f.Valid = false → (Form.mk g.Values (g.Errors.Add x message)).Valid = false)) := by
    intro g x message hg
    refine ⟨?_, fun _ => Form.Valid_Add g x message⟩
    by_cases hx : field = x
    · subst hx
      show Map.index f.Errors field <+: Map.index (g.Errors.Add field message) field
      rw [errors.index_Add_same]
      exact hg.1.trans (List.prefix_append _ _)
    · show Map.index f.Errors field <+: Map.index (g.Errors.Add x message) field
      rw [errors.index_Add_other _ _ _ _ hx]
      exact hg.1
  refine ⟨fun r => ?_, fun rules => ?_⟩
  · exact Form.call_induction
      (fun g => Map.index f.Errors field <+: Map.index g.Errors field ∧
        (f.Valid = false → g.Valid = false))
      hAdd f r ⟨List.prefix_refl _, fun h => h⟩
  · exact Form.calls_induction
      (fun g => Map.index f.Errors field <+: Map.index g.Errors field ∧
        (f.Valid = false → g.Valid = false))
      hAdd rules f ⟨List.prefix_refl _, fun h => h⟩

/-- Witness of C13: a form that already holds the blank-field message of
`title`, then `MaxLength("title", 2)` on the value "abc". -/
theorem rule_calls_append_only_witness :
    (Form.mk [("title", ["abc"])] [("title", ["This field cannot be blank"])]).Valid = false ∧
      ((Form.mk [("title", ["abc"])] [("title", ["This field cannot be blank"])]).call
        (Rule.MaxLength "title" 2)).Valid = false :=
  ⟨by decide,
    ((rule_calls_append_only
      (Form.mk [("title", ["abc"])] [("title", ["This field cannot be blank"])]) "title").1
      (Rule.MaxLength "title" 2)).2 (by decide)⟩

end forms

namespace web

/-! ## The claims on `routes.go` and `helpers.go` -/

/-- C11: the stages of every route registered by `routes()`, outermost first.
Every route starts with `recoverPanic`, `logRequest`, `secureHeaders` and the
dispatch of the router; the routes `/`, `/snippet/{id}`, `/snippet/create`,
`/user/signup`, `/user/login` and `/user/logout` continue with `session.Enable`,
`noSurf`, `authenticate` in that order; `requireAuthentication` is a stage of
GET and POST `/snippet/create` and of POST `/user/logout` and of no other route,
and there it stands right before the handler function, which is last; `/ping`
and `/static/*` have none of these four stages. -/
theorem routes_stage_order :
    routes.routeStages = [
        ("GET", "/",
          [Stage.middleware Middleware.recoverPanic, Stage.middleware Middleware.logRequest,
            Stage.middleware Middleware.secureHeaders, Stage.dispatch,
            Stage.middleware Middleware.sessionEnable, Stage.middleware Middleware.noSurf,
            Stage.middleware Middleware.authenticate,
            Stage.handler HandlerFunc.home]),
        ("GET", "/snippet/\x7bid\x7d",
          [Stage.middleware Middleware.recoverPanic, Stage.middleware Middleware.logRequest,
            Stage.middleware Middleware.secureHeaders, Stage.dispatch,
            Stage.middleware Middleware.sessionEnable, Stage.middleware Middleware.noSurf,
            Stage.middleware Middleware.authenticate,
            Stage.handler HandlerFunc.showSnippet]),
        ("GET", "/snippet/create",
          [Stage.middleware Middleware.recoverPanic, Stage.middleware Middleware.logRequest,
            Stage.middleware Middleware.secureHeaders, Stage.dispatch,
            Stage.middleware Middleware.sessionEnable, Stage.middleware Middleware.noSurf,
            Stage.middleware Middleware.authenticate,
            Stage.middleware Middleware.requireAuthentication, Stage.handler HandlerFunc.createSnippetForm]),
        ("POST", "/snippet/create",
          [Stage.middleware Middleware.recoverPanic, Stage.middleware Middleware.logRequest,
            Stage.middleware Middleware.secureHeaders, Stage.dispatch,
            Stage.middleware Middleware.sessionEnable, Stage.middleware Middleware.noSurf,
            Stage.middleware Middleware.authenticate,
            Stage.middleware Middleware.requireAuthentication, Stage.handler HandlerFunc.createSnippet]),
        ("GET", "/user/signup",
          [Stage.middleware Middleware.recoverPanic, Stage.middleware Middleware.logRequest,
            Stage.middleware Middleware.secureHeaders, Stage.dispatch,
            Stage.middleware Middleware.sessionEnable, Stage.middleware Middleware.noSurf,
            Stage.middleware Middleware.authenticate,
            Stage.handler HandlerFunc.signupUserForm]),
        ("POST", "/user/signup",
          [Stage.middleware Middleware.recoverPanic, Stage.middleware Middleware.logRequest,
            Stage.middleware Middleware.secureHeaders, Stage.dispatch,
            Stage.middleware Middleware.sessionEnable, Stage.middleware Middleware.noSurf,
            Stage.middleware Middleware.authenticate,
            Stage.handler HandlerFunc.signupUser]),
        ("GET", "/user/login",
          [Stage.middleware Middleware.recoverPanic, Stage.middleware Middleware.logRequest,
            Stage.middleware Middleware.secureHeaders, Stage.dispatch,
            Stage.middleware Middleware.sessionEnable, Stage.middleware Middleware.noSurf,
            Stage.middleware Middleware.authenticate,
            Stage.handler HandlerFunc.loginUserForm]),
        ("POST", "/user/login",
          [Stage.middleware Middleware.recoverPanic, Stage.middleware Middleware.logRequest,
            Stage.middleware Middleware.secureHeaders, Stage.dispatch,
            Stage.middleware Middleware.sessionEnable, Stage.middleware Middleware.noSurf,
            Stage.middleware Middleware.authenticate,
            Stage.handler HandlerFunc.loginUser]),
        ("POST", "/user/logout",
          [Stage.middleware Middleware.recoverPanic, Stage.middleware Middleware.logRequest,
            Stage.middleware Middleware.secureHeaders, Stage.dispatch,
            Stage.middleware Middleware.sessionEnable, Stage.middleware Middleware.noSurf,
            Stage.middleware Middleware.authenticate,
            Stage.middleware Middleware.requireAuthentication, Stage.handler HandlerFunc.logoutUser]),
        ("GET", "/ping",
          [Stage.middleware Middleware.recoverPanic, Stage.middleware Middleware.logRequest,
            Stage.middleware Middleware.secureHeaders, Stage.dispatch,
            Stage.handler HandlerFunc.ping]),
        ("*", "/static/*",
          [Stage.middleware Middleware.recoverPanic, Stage.middleware Middleware.logRequest,
            Stage.middleware Middleware.secureHeaders, Stage.dispatch,
            Stage.middleware (Middleware.stripPath "/static"),
            Stage.handler (HandlerFunc.fileServer "./ui/static/")])] ∧
    ∀ route ∈ routes.routeStages,
      route.2.2.take 4 =
        [Stage.middleware Middleware.recoverPanic, Stage.middleware Middleware.logRequest,
          Stage.middleware Middleware.secureHeaders, Stage.dispatch] ∧
      (route.2.1 ∈ ["/", "/snippet/\x7bid\x7d", "/snippet/create", "/user/signup",
          "/user/login", "/user/logout"] →
        (route.2.2.drop 4).take 3 =
          [Stage.middleware Middleware.sessionEnable, Stage.middleware Middleware.noSurf,
            Stage.middleware Middleware.authenticate]) ∧
      ((route.1, route.2.1) ∈ [("GET", "/snippet/create"), ("POST", "/snippet/create"),
          ("POST", "/user/logout")] ↔
        Stage.middleware Middleware.requireAuthentication ∈ route.2.2) ∧
      (Stage.middleware Middleware.requireAuthentication ∈ route.2.2 →
        ∃ fn, route.2.2.drop 7 =
          [Stage.middleware Middleware.requireAuthentication, Stage.handler fn]) ∧
      (route.2.1 ∈ ["/ping", "/static/*"] →
        ∀ mw ∈ [Middleware.sessionEnable, Middleware.noSurf, Middleware.authenticate,
            Middleware.requireAuthentication],
          Stage.middleware mw ∉ route.2.2) := by
  have table : routes.routeStages = [
        ("GET", "/",
          [Stage.middleware Middleware.recoverPanic, Stage.middleware Middleware.logRequest,
            Stage.middleware Middleware.secureHeaders, Stage.dispatch,
            Stage.middleware Middleware.sessionEnable, Stage.middleware Middleware.noSurf,
            Stage.middleware Middleware.authenticate,
            Stage.handler HandlerFunc.home]),
        ("GET", "/snippet/\x7bid\x7d",
          [Stage.middleware Middleware.recoverPanic, Stage.middleware Middleware.logRequest,
            Stage.middleware Middleware.secureHeaders, Stage.dispatch,
            Stage.middleware Middleware.sessionEnable, Stage.middleware Middleware.noSurf,
            Stage.middleware Middleware.authenticate,
            Stage.handler HandlerFunc.showSnippet]),
        ("GET", "/snippet/create",
          [Stage.middleware Middleware.recoverPanic, Stage.middleware Middleware.logRequest,
            Stage.middleware Middleware.secureHeaders, Stage.dispatch,
            Stage.middleware Middleware.sessionEnable, Stage.middleware Middleware.noSurf,
            Stage.middleware Middleware.authenticate,
            Stage.middleware Middleware.requireAuthentication, Stage.handler HandlerFunc.createSnippetForm]),
        ("POST", "/snippet/create",
          [Stage.middleware Middleware.recoverPanic, Stage.middleware Middleware.logRequest,
            Stage.middleware Middleware.secureHeaders, Stage.dispatch,
            Stage.middleware Middleware.sessionEnable, Stage.middleware Middleware.noSurf,
            Stage.middleware Middleware.authenticate,
            Stage.middleware Middleware.requireAuthentication, Stage.handler HandlerFunc.createSnippet]),
        ("GET", "/user/signup",
          [Stage.middleware Middleware.recoverPanic, Stage.middleware Middleware.logRequest,
            Stage.middleware Middleware.secureHeaders, Stage.dispatch,
            Stage.middleware Middleware.sessionEnable, Stage.middleware Middleware.noSurf,
            Stage.middleware Middleware.authenticate,
            Stage.handler HandlerFunc.signupUserForm]),
        ("POST", "/user/signup",
          [Stage.middleware Middleware.recoverPanic, Stage.middleware Middleware.logRequest,
            Stage.middleware Middleware.secureHeaders, Stage.dispatch,
            Stage.middleware Middleware.sessionEnable, Stage.middleware Middleware.noSurf,
            Stage.middleware Middleware.authenticate,
            Stage.handler HandlerFunc.signupUser]),
        ("GET", "/user/login",
          [Stage.middleware Middleware.recoverPanic, Stage.middleware Middleware.logRequest,
            Stage.middleware Middleware.secureHeaders, Stage.dispatch,
            Stage.middleware Middleware.sessionEnable, Stage.middleware Middleware.noSurf,
            Stage.middleware Middleware.authenticate,
            Stage.handler HandlerFunc.loginUserForm]),
        ("POST", "/user/login",
          [Stage.middleware Middleware.recoverPanic, Stage.middleware Middleware.logRequest,
            Stage.middleware Middleware.secureHeaders, Stage.dispatch,
            Stage.middleware Middleware.sessionEnable, Stage.middleware Middleware.noSurf,
            Stage.middleware Middleware.authenticate,
            Stage.handler HandlerFunc.loginUser]),
        ("POST", "/user/logout",
          [Stage.middleware Middleware.recoverPanic, Stage.middleware Middleware.logRequest,
            Stage.middleware Middleware.secureHeaders, Stage.dispatch,
            Stage.middleware Middleware.sessionEnable, Stage.middleware Middleware.noSurf,
            Stage.middleware Middleware.authenticate,
            Stage.middleware Middleware.requireAuthentication, Stage.handler HandlerFunc.logoutUser]),
        ("GET", "/ping",
          [Stage.middleware Middleware.recoverPanic, Stage.middleware Middleware.logRequest,
            Stage.middleware Middleware.secureHeaders, Stage.dispatch,
            Stage.handler HandlerFunc.ping]),
        ("*", "/static/*",
          [Stage.middleware Middleware.recoverPanic, Stage.middleware Middleware.logRequest,
            Stage.middleware Middleware.secureHeaders, Stage.dispatch,
            Stage.middleware (Middleware.stripPath "/static"),
            Stage.handler (HandlerFunc.fileServer "./ui/static/")])] := by
    decide
  refine ⟨table, ?_⟩
  rw [table]
  intro route hroute
  simp only [List.mem_cons, List.mem_singleton, List.not_mem_nil, or_false] at hroute
  rcases hroute with h | h | h | h | h | h | h | h | h | h | h <;> subst h <;>
    refine ⟨by decide, by decide, by decide, ?_, by decide⟩ <;>
    first
      | exact fun _ => ⟨_, rfl⟩
      | exact fun hmem => absurd hmem (by decide)

/-- C12: `serverError` hands nothing of the error to the client. For any two
errors, stack traces and states of the error log, the response writer after
`serverError` is the same; on a writer with no status written yet it holds the
status 500 and the body grown by the one fixed line "Internal Server Error";
the text of the error and the stack trace are appended to the error log. -/
theorem serverError_response_fixed (app1 app2 : application) (w : http.ResponseWriter)
    (e1 e2 : error) (stack1 stack2 : String) :
    (app1.serverError w e1 stack1).2 = (app2.serverError w e2 stack2).2 ∧
    (w.status = none →
      (app1.serverError w e1 stack1).2.status = some 500 ∧
      (app1.serverError w e1 stack1).2.body = w.body ++ "Internal Server Error" ++ "\n") ∧
    (app1.serverError w e1 stack1).1.errorLog =
      app1.errorLog ++ [e1.Error ++ "\n" ++ stack1] := by
  refine ⟨rfl, ?_, rfl⟩
  intro hw
  have htext : http.StatusText 500 = "Internal Server Error" := by
    decide
  refine ⟨?_, ?_⟩
  · simp only [application.serverError, http.Error, http.ResponseWriter.Write,
      http.ResponseWriter.WriteHeader, hw, http.StatusInternalServerError]
  · simp only [application.serverError, http.Error, http.ResponseWriter.Write,
      http.ResponseWriter.WriteHeader, hw, http.StatusInternalServerError, htext]
    rw [String.append_assoc]

/-- Witness of C12: a writer with nothing written yet, and two different
errors. -/
theorem serverError_response_fixed_witness :
    (application.serverError (application.mk [])
        (http.ResponseWriter.mk none "") (error.mk "sql: no rows in result set")
        "goroutine 1 [running]").2.status = some 500 ∧
      (application.serverError (application.mk [])
        (http.ResponseWriter.mk none "") (error.mk "sql: no rows in result set")
        "goroutine 1 [running]").2.body = "" ++ "Internal Server Error" ++ "\n" :=
  (serverError_response_fixed (application.mk []) (application.mk ["earlier"])
    (http.ResponseWriter.mk none "") (error.mk "sql: no rows in result set")
    (error.mk "dial tcp: connection refused") "goroutine 1 [running]" "goroutine 7 [running]").2.1
    rfl

end web
